import Mathlib

/-!
Verification of the teacher-dashboard page `src/pages/teacher.py`.

The page is a sequential pipeline: fetch all submission rows ordered by
`created_at` descending, reformat timestamps, compute summary metrics, filter
by a student-id search string, render a table plus per-record detail blocks,
and offer the full dataset as a CSV download.  The fetched data is modelled as
a `Frame` (column names plus rows of cell strings), the pandas/streamlit
operations as plain functions over it, and one render cycle as `renderPage`.
-/

/-- A fetched dataframe: the column names in order, and the rows (one list of
cell strings per record, in column order).  Models the pandas DataFrame built
from the Supabase response (`pd.DataFrame(raw_data)`, teacher.py line 44). -/
structure Frame where
  cols : List String
  rows : List (List String)
deriving DecidableEq

/-- Cell lookup `row[col]`: the entry of `r` at the position of `c` in `cols`
(the empty string when the column is absent). -/
def getCell (cols : List String) (r : List String) (c : String) : String :=
  r.getD (cols.indexOf c) ""

/-- Models `pd.to_datetime(s).dt.strftime('%Y-%m-%d %H:%M')` (line 47) for
timezone-free ISO-8601 inputs `YYYY-MM-DD HH:MM:SS` (with `T` or a space as
date/time separator): the ten-character date part, a space, then hours and
minutes. -/
def formatCreatedAt (s : String) : String :=
  String.mk (s.data.take 10) ++ " " ++ String.mk ((s.data.drop 11).take 5)

/-- Line 47: rewrite the `created_at` cell of every row to display format. -/
def Frame.preprocess (f : Frame) : Frame :=
  { cols := f.cols
    rows := f.rows.map fun r =>
      r.set (f.cols.indexOf "created_at")
        (formatCreatedAt (r.getD (f.cols.indexOf "created_at") "")) }

/-- Whether `needle` is a prefix of the text, by literal character equality. -/
def litMatchHere : List Char → List Char → Bool
  | [], _ => true
  | _ :: _, [] => false
  | n :: ns, c :: cs => decide (n = c) && litMatchHere ns cs

/-- Python's `s.startswith(p)`. -/
def strStartsWith (s p : String) : Bool := litMatchHere p.data s.data

/-- Line 50: `total_students = len(df['student_id'].unique())`. -/
def totalStudents (f : Frame) : Nat :=
  ((f.rows.map fun r => getCell f.cols r "student_id").dedup).length

/-- Line 51: `total_submissions = len(df)`. -/
def totalSubmissions (f : Frame) : Nat := f.rows.length

/-- Line 54: `q1_correct_count = df['feedback_1'].str.startswith("O:").sum()`,
the number of rows whose `feedback_1` column starts with `"O:"`. -/
def q1CorrectCount (f : Frame) : Nat :=
  ((f.rows.map fun r => getCell f.cols r "feedback_1").filter
    (fun s => strStartsWith s "O:")).length

/-- Line 55: `correct_rate = (q1_correct_count / total_submissions) * 100`,
over the rationals (the Python computation is over floats; all values used in
this file are exactly representable). -/
def correctRate (f : Frame) : ℚ :=
  (q1CorrectCount f : ℚ) / (totalSubmissions f : ℚ) * 100

/-- Floor of a rational number (exact: Lean's integer division is Euclidean,
so `num / den` with a positive denominator floors). -/
def rfloor (q : ℚ) : ℤ := q.num / (q.den : ℤ)

/-- Round to the nearest multiple of one, ties to even — the rounding of
Python float formatting on exactly representable values. -/
def roundHE (q : ℚ) : ℤ :=
  let n := rfloor q
  let fr := q - (n : ℚ)
  if fr < 1/2 then n
  else if 1/2 < fr then n + 1
  else if n % 2 = 0 then n else n + 1

/-- Models the f-string formatting `f"{x:.1f}"` (line 60) for nonnegative
`x`: one digit after the decimal point. -/
def fmt1 (q : ℚ) : String :=
  let n := roundHE (q * 10)
  toString (n / 10) ++ "." ++ toString (n % 10)

/-- Whether pattern character `p` matches text character `c` in the modelled
regular-expression subset: `.` matches any character, every other pattern
character matches itself. -/
def reCharMatches (p c : Char) : Bool := decide (p = '.' ∨ p = c)

/-- Whether the pattern matches at the very start of the text. -/
def reMatchHere : List Char → List Char → Bool
  | [], _ => true
  | _ :: _, [] => false
  | p :: ps, c :: cs => reCharMatches p c && reMatchHere ps cs

/-- Whether the pattern matches at some position of the text. -/
def reSearchList (pat : List Char) : List Char → Bool
  | [] => reMatchHere pat []
  | c :: cs => reMatchHere pat (c :: cs) || reSearchList pat cs

/-- Models Python `re.search(pat, s) is not None` for patterns built from
ordinary characters and the metacharacter `.` — the semantics that pandas
`Series.str.contains` (line 70, default `regex=True`) gives the user's
search string. -/
def reSearch (pat s : String) : Bool := reSearchList pat.data s.data

/-- Whether `needle` occurs at some position of the text, literally. -/
def subLA (needle : List Char) : List Char → Bool
  | [] => litMatchHere needle []
  | c :: cs => litMatchHere needle (c :: cs) || subLA needle cs

/-- Python's literal substring test `needle in hay`. -/
def strContains (hay needle : String) : Bool := subLA needle.data hay.data


/-- Characters with no special regular-expression meaning. -/
def plainChar (c : Char) : Bool :=
  !(['.', '^', '$', '*', '+', '?', '\x7b', '\x7d', '[', ']', '\\', '|', '(', ')'].contains c)

/-- Lines 68–70: `filtered_df = df` when the search string is empty (Python
truthiness of `search_id`), otherwise
`df[df['student_id'].str.contains(search_id)]`. -/
def filteredRows (f : Frame) (s : String) : List (List String) :=
  if s = "" then f.rows
  else f.rows.filter fun r => reSearch s (getCell f.cols r "student_id")

/-- Line 74: the fixed column order of the main display table. -/
def displayCols : List String :=
  ["student_id", "created_at", "answer_1", "feedback_1", "answer_2", "feedback_2",
   "answer_3", "feedback_3"]

/-- The two visual stylings used for feedback in the detail expander:
`st.success` (positive) and `st.warning`. -/
inductive Styling
  | positive
  | warning
deriving DecidableEq

/-- Lines 93–97: `st.success(fb) if "O:" in fb else st.warning(fb)`. -/
def stylingOf (fb : String) : Styling :=
  if strContains fb "O:" then Styling.positive else Styling.warning

/-- One expander block (lines 79–97): header data and, per question slot, the
answer, the feedback and the feedback's styling. -/
structure DetailEntry where
  sid : String
  created : String
  items : List (String × String × Styling)
deriving DecidableEq

def detailOf (cols : List String) (r : List String) : DetailEntry :=
  { sid := getCell cols r "student_id"
    created := getCell cols r "created_at"
    items :=
      [ (getCell cols r "answer_1", getCell cols r "feedback_1",
         stylingOf (getCell cols r "feedback_1"))
      , (getCell cols r "answer_2", getCell cols r "feedback_2",
         stylingOf (getCell cols r "feedback_2"))
      , (getCell cols r "answer_3", getCell cols r "feedback_3",
         stylingOf (getCell cols r "feedback_3")) ] }

/-- Whether CSV QUOTE_MINIMAL quotes the field: it contains the delimiter,
the quote character or a line break. -/
def needsQuoting (f : String) : Bool :=
  f.data.any fun c => decide (c = ',' ∨ c = '"' ∨ c = '\n' ∨ c = '\r')

/-- Double every quote character, as CSV quoting does inside a quoted field. -/
def escapeChars : List Char → List Char
  | [] => []
  | c :: cs => if c = '"' then '"' :: '"' :: escapeChars cs else c :: escapeChars cs

/-- Serialize one CSV field with minimal quoting. -/
def writeField (f : String) : List Char :=
  if needsQuoting f then '"' :: (escapeChars f.data ++ ['"']) else f.data

/-- Serialize one CSV record, fields separated by commas. -/
def writeRow : List String → List Char
  | [] => []
  | [f] => writeField f
  | f :: g :: t => writeField f ++ ',' :: writeRow (g :: t)

/-- Serialize records, each terminated by a newline — the layout of
`df.to_csv(index=False)`. -/
def writeRowsAux : List (List String) → List Char
  | [] => []
  | r :: rs => writeRow r ++ '\n' :: writeRowsAux rs

/-- Lines 103–105: `df.to_csv(index=False).encode('utf-8-sig')` — a byte-order
mark, then the header row (the frame's own column names), then every data
row. -/
def exportCsv (f : Frame) : String :=
  String.mk ('\uFEFF' :: writeRowsAux (f.cols :: f.rows))

/-- Reader states for the CSV parser: outside quotes, inside a quoted field,
and just after a quote character inside a quoted field. -/
inductive CsvSt
  | norm
  | quot
  | post
deriving DecidableEq

/-- One-pass CSV reader: remaining input, state, current field (reversed),
current record (reversed), finished records (reversed). -/
def parseAux : List Char → CsvSt → List Char → List String → List (List String) →
    List (List String)
  | [], st, curF, curR, acc =>
    if st = CsvSt.norm ∧ curF = [] ∧ curR = [] then acc.reverse
    else ((String.mk curF.reverse :: curR).reverse :: acc).reverse
  | c :: rest, CsvSt.quot, curF, curR, acc =>
    if c = '"' then parseAux rest CsvSt.post curF curR acc
    else parseAux rest CsvSt.quot (c :: curF) curR acc
  | c :: rest, CsvSt.post, curF, curR, acc =>
    if c = '"' then parseAux rest CsvSt.quot ('"' :: curF) curR acc
    else if c = ',' then parseAux rest CsvSt.norm [] (String.mk curF.reverse :: curR) acc
    else if c = '\n' then
      parseAux rest CsvSt.norm [] [] ((String.mk curF.reverse :: curR).reverse :: acc)
    else parseAux rest CsvSt.norm (c :: curF) curR acc
  | c :: rest, CsvSt.norm, curF, curR, acc =>
    if c = '"' then
      if curF = [] then parseAux rest CsvSt.quot curF curR acc
      else parseAux rest CsvSt.norm (c :: curF) curR acc
    else if c = ',' then parseAux rest CsvSt.norm [] (String.mk curF.reverse :: curR) acc
    else if c = '\n' then
      parseAux rest CsvSt.norm [] [] ((String.mk curF.reverse :: curR).reverse :: acc)
    else parseAux rest CsvSt.norm (c :: curF) curR acc

/-- Standard CSV reading of exported text. -/
def parseCsv (s : String) : List (List String) := parseAux s.data CsvSt.norm [] [] []

/-- Decoding UTF-8-with-BOM text: drop a leading byte-order mark. -/
def stripBom (s : String) : String :=
  if s.data.headD ' ' = '\uFEFF' then String.mk s.data.tail else s

/-- Everything the page body displays or offers in one render cycle. -/
structure PageView where
  placeholder : Bool
  metricStudents : Option String
  metricSubs : Option String
  metricRate : Option String
  tableCols : List String
  tableRows : List (List String)
  details : List DetailEntry
  exportData : Option String
deriving DecidableEq

/-- One render cycle of the dashboard body (lines 40–113) as a function of
the fetched snapshot and the search string: an empty fetch shows only the
"no submissions yet" placeholder; otherwise the page shows the three metric
figures, the filtered table in display-column order, one detail block per
filtered record, and the CSV download built from the full (unfiltered)
dataframe. -/
def renderPage (raw : Frame) (search : String) : PageView :=
  if raw.rows = [] then
    { placeholder := true, metricStudents := none, metricSubs := none,
      metricRate := none, tableCols := [], tableRows := [], details := [],
      exportData := none }
  else
    let df := raw.preprocess
    let fr := filteredRows df search
    { placeholder := false
      metricStudents := some (toString (totalStudents df) ++ "명")
      metricSubs := some (toString (totalSubmissions df) ++ "건")
      metricRate := some (fmt1 (correctRate df) ++ "%")
      tableCols := displayCols
      tableRows := fr.map fun r => displayCols.map (getCell df.cols r)
      details := fr.map (detailOf df.cols)
      exportData := some (exportCsv df) }

/-- The specification's formulation of the rate's numerator: the count of
records whose `feedback_1` starts with `"O:"`. -/
def q1SpecCount (f : Frame) : Nat :=
  f.rows.countP fun r => strStartsWith (getCell f.cols r "feedback_1") "O:"

/-- The two-record scenario from the specification, §8. -/
def scenarioFrame : Frame :=
  { cols := displayCols
    rows :=
      [ ["101", "2024-05-01T10:00:00", "a1", "O: correct", "a2", "O: good", "a3", "X: no"]
      , ["102", "2024-05-01T09:00:00", "b1", "X: wrong", "b2", "X: no", "b3", "O: ok"] ] }

/-- An empty fetch result. -/
def emptyFrame : Frame := { cols := displayCols, rows := [] }

/-- A snapshot whose single student id contains no `.` character. -/
def dotFrame : Frame :=
  { cols := displayCols
    rows := [["abc", "2024-05-01T10:00:00", "a1", "O: y", "a2", "O: y", "a3", "O: y"]] }

/-- A snapshot whose `feedback_1` contains `"O:"` without starting with it. -/
def mixedFeedbackFrame : Frame :=
  { cols := displayCols
    rows := [["103", "2024-05-01T10:00:00", "a1", "X: wrong, but O: close", "a2",
              "O: good", "a3", "X: no"]] }

/-- A snapshot whose columns come back from the store in table-definition
order (`id` first, answers grouped before feedbacks). -/
def storeOrderFrame : Frame :=
  { cols := ["id", "student_id", "created_at", "answer_1", "answer_2", "answer_3",
             "feedback_1", "feedback_2", "feedback_3"]
    rows := [["1", "101", "2024-05-01T10:00:00", "a1", "a2", "a3", "O: g", "O: g", "X: n"]] }

/-! ## Helper lemmas -/

lemma mkData (s : String) : String.mk s.data = s := by
  cases s
  rfl

lemma preprocess_cols (f : Frame) : f.preprocess.cols = f.cols := rfl

lemma preprocess_rows_length (f : Frame) : f.preprocess.rows.length = f.rows.length := by
  simp [Frame.preprocess]

lemma correctRate_eq_spec (f : Frame) :
    correctRate f = (q1SpecCount f : ℚ) / (f.rows.length : ℚ) * 100 := by
  have hc : q1CorrectCount f = q1SpecCount f := by
    unfold q1CorrectCount q1SpecCount
    rw [← List.countP_eq_length_filter, List.countP_map]
    rfl
  unfold correctRate totalSubmissions
  rw [hc]

lemma plainChar_ne_dot {p : Char} (hp : plainChar p = true) : p ≠ '.' := by
  intro e
  subst e
  simp [plainChar] at hp

lemma reCharMatches_plain {p : Char} (hp : plainChar p = true) (c : Char) :
    reCharMatches p c = decide (p = c) := by
  unfold reCharMatches
  exact decide_eq_decide.mpr (or_iff_right (plainChar_ne_dot hp))

lemma reMatchHere_plain (pat t : List Char) (hp : pat.all plainChar = true) :
    reMatchHere pat t = litMatchHere pat t := by
  induction pat generalizing t with
  | nil => cases t <;> rfl
  | cons p ps ih =>
    rw [List.all_cons, Bool.and_eq_true] at hp
    cases t with
    | nil => rfl
    | cons c cs =>
      simp only [reMatchHere, litMatchHere, reCharMatches_plain hp.1, ih _ hp.2]

lemma reSearchList_plain (pat : List Char) (hp : pat.all plainChar = true)
    (l : List Char) : reSearchList pat l = subLA pat l := by
  induction l with
  | nil => simp [reSearchList, subLA, reMatchHere_plain _ _ hp]
  | cons c cs ih => simp [reSearchList, subLA, reMatchHere_plain _ _ hp, ih]

lemma reSearch_plain (s x : String) (hp : s.data.all plainChar = true) :
    reSearch s x = strContains x s :=
  reSearchList_plain _ hp _

lemma scenario_rate : correctRate scenarioFrame.preprocess = 50 := by
  have h1 : q1CorrectCount scenarioFrame.preprocess = 1 := by decide
  have h2 : totalSubmissions scenarioFrame.preprocess = 2 := by decide
  unfold correctRate
  rw [h1, h2]
  norm_num

lemma fmt1_fifty : fmt1 50 = "50.0" := by
  have h10 : (50 : ℚ) * 10 = 500 := by norm_num
  have hr : roundHE (500 : ℚ) = 500 := by
    have hf : rfloor (500 : ℚ) = 500 := by simp [rfloor]
    simp only [roundHE, hf]
    norm_num
  simp only [fmt1, h10, hr]
  decide

/-! ## Claims -/

/-- C1: for every non-empty fetched record set, the displayed correct rate is
the count of records whose `feedback_1` starts with `"O:"`, divided by the
number of submissions, times 100, formatted to one decimal place; and on the
specification's two-record scenario the metrics are `total_students = 2`,
`total_submissions = 2`, `correct_rate = 50.0`. -/
theorem claim_C1_correct_rate :
    (∀ (raw : Frame) (s : String), raw.rows ≠ [] →
      (renderPage raw s).metricRate =
        some (fmt1 ((q1SpecCount raw.preprocess : ℚ) /
          (raw.preprocess.rows.length : ℚ) * 100) ++ "%"))
    ∧ totalStudents scenarioFrame.preprocess = 2
    ∧ totalSubmissions scenarioFrame.preprocess = 2
    ∧ correctRate scenarioFrame.preprocess = 50
    ∧ (renderPage scenarioFrame "").metricRate = some "50.0%" := by
  refine ⟨?_, by decide, by decide, scenario_rate, ?_⟩
  · intro raw s h
    simp only [renderPage, if_neg h]
    rw [correctRate_eq_spec]
  · simp only [renderPage, if_neg (by decide : ¬(scenarioFrame.rows = []))]
    rw [scenario_rate, fmt1_fifty]
    rfl

theorem claim_C1_correct_rate_witness :
    scenarioFrame.rows ≠ [] ∧
      (renderPage scenarioFrame "").metricRate =
        some (fmt1 ((q1SpecCount scenarioFrame.preprocess : ℚ) /
          (scenarioFrame.preprocess.rows.length : ℚ) * 100) ++ "%") :=
  ⟨by decide, claim_C1_correct_rate.1 scenarioFrame "" (by decide)⟩

/-- C4: the exported file is a function of the snapshot alone — two render
cycles over the same snapshot that differ only in the active search string
produce identical export data, so the filter has no influence on the export. -/
theorem claim_C4_export_ignores_filter :
    ∀ (raw : Frame) (s t : String),
      (renderPage raw s).exportData = (renderPage raw t).exportData := by
  intro raw s t
  by_cases h : raw.rows = [] <;> simp [renderPage, h]

/-- C6: an empty fetched record set suppresses the metrics, the detail section
and the export, showing only the placeholder; and whenever the rate metric is
computed at all, its divisor `total_submissions` is positive, so the division
is never reached with a zero divisor. -/
theorem claim_C6_empty_guard (raw : Frame) (s : String) (h : raw.rows = []) :
    (renderPage raw s).placeholder = true
    ∧ (renderPage raw s).metricRate = none
    ∧ (renderPage raw s).details = []
    ∧ (renderPage raw s).exportData = none
    ∧ ∀ (g : Frame) (t : String), (renderPage g t).metricRate ≠ none →
        0 < totalSubmissions g.preprocess := by
  refine ⟨by simp [renderPage, h], by simp [renderPage, h], by simp [renderPage, h],
    by simp [renderPage, h], ?_⟩
  intro g t hg
  by_cases hgr : g.rows = []
  · simp [renderPage, hgr] at hg
  · have : totalSubmissions g.preprocess = g.rows.length := preprocess_rows_length g
    rw [this]
    exact List.length_pos.mpr hgr

theorem claim_C6_empty_guard_witness :
    emptyFrame.rows = []
    ∧ ((renderPage emptyFrame "").placeholder = true
      ∧ (renderPage emptyFrame "").metricRate = none
      ∧ (renderPage emptyFrame "").details = []
      ∧ (renderPage emptyFrame "").exportData = none
      ∧ ∀ (g : Frame) (t : String), (renderPage g t).metricRate ≠ none →
          0 < totalSubmissions g.preprocess) :=
  ⟨rfl, claim_C6_empty_guard emptyFrame "" rfl⟩

/-- C7: filtering with the empty search string passes the record set through
unchanged — every record present, in the same order. -/
theorem claim_C7_empty_search_id (f : Frame) : filteredRows f "" = f.rows := by
  simp [filteredRows]

/-- C8: the filter is idempotent — re-filtering an already filtered record set
with the same search string returns it unchanged. -/
theorem claim_C8_filter_idempotent (f : Frame) (s : String) :
    filteredRows { cols := f.cols, rows := filteredRows f s } s = filteredRows f s := by
  by_cases h : s = ""
  · simp [filteredRows, h]
  · simp [filteredRows, h, List.filter_filter]

/-- C9: for every non-empty record set, the number of distinct student ids is
at most the number of submissions. -/
theorem claim_C9_students_le_submissions (f : Frame) (h : f.rows ≠ []) :
    totalStudents f ≤ totalSubmissions f := by
  have h1 : ((f.rows.map fun r => getCell f.cols r "student_id").dedup).length
      ≤ (f.rows.map fun r => getCell f.cols r "student_id").length :=
    (List.dedup_sublist _).length_le
  simpa [totalStudents, totalSubmissions] using h1

theorem claim_C9_students_le_submissions_witness :
    scenarioFrame.rows ≠ []
    ∧ totalStudents scenarioFrame ≤ totalSubmissions scenarioFrame :=
  ⟨by decide, claim_C9_students_le_submissions scenarioFrame (by decide)⟩

/-- C10: for a non-empty search string, the filtered sequence is a sublist of
the original sequence (relative order preserved, no reordering), and it holds
exactly the records whose `student_id` the search matches. -/
theorem claim_C10_filter_preserves_order (f : Frame) (s : String) (h : s ≠ "") :
    List.Sublist (filteredRows f s) f.rows
    ∧ ∀ r, r ∈ filteredRows f s ↔
        r ∈ f.rows ∧ reSearch s (getCell f.cols r "student_id") = true := by
  simp only [filteredRows, if_neg h]
  exact ⟨List.filter_sublist _, fun r => List.mem_filter⟩

theorem claim_C10_filter_preserves_order_witness :
    ("10" : String) ≠ ""
    ∧ (List.Sublist (filteredRows scenarioFrame "10") scenarioFrame.rows
      ∧ ∀ r, r ∈ filteredRows scenarioFrame "10" ↔
          r ∈ scenarioFrame.rows ∧
            reSearch "10" (getCell scenarioFrame.cols r "student_id") = true) :=
  ⟨by decide, claim_C10_filter_preserves_order scenarioFrame "10" (by decide)⟩

/-- C2 counterexample: in the rendered detail view of a record whose
`feedback_1` merely contains `"O:"` without starting with it, the feedback is
styled positive — so "positive iff the feedback starts with `O:`" is false
(the code tests `"O:" in fb`, a substring test, not a prefix test). -/
theorem claim_C2_counterexample :
    ((renderPage mixedFeedbackFrame "").details.map fun d =>
        d.items.map fun it => it.2.2)
      = [[Styling.positive, Styling.positive, Styling.warning]]
    ∧ strStartsWith
        (getCell mixedFeedbackFrame.cols (mixedFeedbackFrame.rows.headD []) "feedback_1")
        "O:" = false := by
  constructor <;> decide

/-- C2 amended: in the per-record detail view, each of the three feedback
fields is rendered with positive styling if and only if the feedback string
contains `"O:"` as a substring (not: starts with `"O:"`); otherwise warning
styling. -/
theorem claim_C2_styling_amended (raw : Frame) (s : String) :
    ∀ d ∈ (renderPage raw s).details, ∀ it ∈ d.items,
      (it.2.2 = Styling.positive ↔ strContains it.2.1 "O:" = true) := by
  intro d hd it hit
  by_cases h : raw.rows = []
  · simp [renderPage, h] at hd
  · simp only [renderPage, if_neg h, List.mem_map] at hd
    obtain ⟨r, _, rfl⟩ := hd
    have hgen : ∀ fb a, (it.2.2 = Styling.positive ↔ strContains it.2.1 "O:" = true) ∨
        it ≠ (a, fb, stylingOf fb) := by
      intro fb a
      by_cases he : it = (a, fb, stylingOf fb)
      · subst he
        left
        unfold stylingOf
        by_cases hc : strContains fb "O:" <;> simp [hc]
      · right
        exact he
    simp only [detailOf, List.mem_cons, List.not_mem_nil, or_false] at hit
    rcases hit with h1 | h1 | h1 <;>
      rcases hgen _ _ with hg | hg <;> first | exact hg | exact absurd h1 hg

theorem claim_C2_styling_amended_witness :
    (renderPage mixedFeedbackFrame "").details.headD ⟨"", "", []⟩
        ∈ (renderPage mixedFeedbackFrame "").details
    ∧ (("a1", "X: wrong, but O: close",
          stylingOf "X: wrong, but O: close") : String × String × Styling)
        ∈ ((renderPage mixedFeedbackFrame "").details.headD ⟨"", "", []⟩).items
    ∧ ((("a1", "X: wrong, but O: close", stylingOf "X: wrong, but O: close") :
          String × String × Styling).2.2 = Styling.positive ↔
        strContains (("a1", "X: wrong, but O: close",
          stylingOf "X: wrong, but O: close") : String × String × Styling).2.1
          "O:" = true) :=
  ⟨by decide, by decide,
    claim_C2_styling_amended mixedFeedbackFrame ""
      ((renderPage mixedFeedbackFrame "").details.headD ⟨"", "", []⟩) (by decide)
      ("a1", "X: wrong, but O: close", stylingOf "X: wrong, but O: close")
      (by decide)⟩

/-- C3 counterexample: searching with the one-character string `"."` retains a
record whose `student_id` is `"abc"`, which does not contain `"."` as a literal
substring — the filter gives the search string to `str.contains`, whose
default is regular-expression matching, so the "literal comparison" reading of
the claim is false. -/
theorem claim_C3_counterexample :
    filteredRows dotFrame "." = dotFrame.rows
    ∧ dotFrame.rows ≠ []
    ∧ getCell dotFrame.cols (dotFrame.rows.headD []) "student_id" = "abc"
    ∧ strContains (getCell dotFrame.cols (dotFrame.rows.headD []) "student_id")
        "." = false := by
  refine ⟨by decide, by decide, by decide, by decide⟩

/-- C3 amended: for a non-empty search string, the filter retains exactly the
records whose `student_id` the search string matches when interpreted as a
regular expression (pandas `str.contains`, default `regex=True`, `re.search`
semantics); only for search strings made of characters with no special
regular-expression meaning does this coincide with case-sensitive literal
substring containment.  The original snapshot is left unchanged (the
operation builds a new sequence). -/
theorem claim_C3_filter_amended (f : Frame) (s : String) (h : s ≠ "") :
    (∀ r, r ∈ filteredRows f s ↔
      r ∈ f.rows ∧ reSearch s (getCell f.cols r "student_id") = true)
    ∧ (s.data.all plainChar = true →
        ∀ r, r ∈ filteredRows f s ↔
          r ∈ f.rows ∧ strContains (getCell f.cols r "student_id") s = true) := by
  constructor
  · intro r
    simp only [filteredRows, if_neg h]
    exact List.mem_filter
  · intro hp r
    simp only [filteredRows, if_neg h]
    rw [List.mem_filter, reSearch_plain s _ hp]

theorem claim_C3_filter_amended_witness :
    ("101" : String) ≠ ""
    ∧ ((∀ r, r ∈ filteredRows scenarioFrame "101" ↔
          r ∈ scenarioFrame.rows ∧
            reSearch "101" (getCell scenarioFrame.cols r "student_id") = true)
      ∧ (("101" : String).data.all plainChar = true →
          ∀ r, r ∈ filteredRows scenarioFrame "101" ↔
            r ∈ scenarioFrame.rows ∧
              strContains (getCell scenarioFrame.cols r "student_id") "101" = true)) :=
  ⟨by decide, claim_C3_filter_amended scenarioFrame "101" (by decide)⟩

/-! ## CSV writer/reader round-trip -/

lemma noSpecial {f : String} (hq : needsQuoting f = false) :
    ∀ c ∈ f.data, ¬c = ',' ∧ ¬c = '"' ∧ ¬c = '\n' := by
  intro c hc
  by_contra hcon
  have ht : needsQuoting f = true := by
    unfold needsQuoting
    rw [List.any_eq_true]
    refine ⟨c, hc, ?_⟩
    rw [decide_eq_true_eq]
    push_neg at hcon
    by_cases h1 : c = ','
    · exact Or.inl h1
    by_cases h2 : c = '"'
    · exact Or.inr (Or.inl h2)
    exact Or.inr (Or.inr (Or.inl (hcon h1 h2)))
  rw [ht] at hq
  exact Bool.noConfusion hq

lemma parseAux_norm_char {c : Char} (h1 : ¬c = ',') (h2 : ¬c = '"') (h3 : ¬c = '\n')
    (rest : List Char) (curF : List Char) (curR : List String)
    (acc : List (List String)) :
    parseAux (c :: rest) CsvSt.norm curF curR acc
      = parseAux rest CsvSt.norm (c :: curF) curR acc := by
  simp only [parseAux]
  rw [if_neg h2, if_neg h1, if_neg h3]

lemma parseAux_quot_char {c : Char} (hc : ¬c = '"') (rest : List Char)
    (curF : List Char) (curR : List String) (acc : List (List String)) :
    parseAux (c :: rest) CsvSt.quot curF curR acc
      = parseAux rest CsvSt.quot (c :: curF) curR acc := by
  simp only [parseAux]
  rw [if_neg hc]

lemma parseRun : ∀ (l : List Char), (∀ c ∈ l, ¬c = ',' ∧ ¬c = '"' ∧ ¬c = '\n') →
    ∀ (rest curF : List Char) (curR : List String) (acc : List (List String)),
      parseAux (l ++ rest) CsvSt.norm curF curR acc
        = parseAux rest CsvSt.norm (l.reverse ++ curF) curR acc := by
  intro l
  induction l with
  | nil => intro _ rest curF curR acc; simp
  | cons c cs ih =>
    intro h rest curF curR acc
    obtain ⟨h1, h2, h3⟩ := h c (by simp)
    have hcs : ∀ x ∈ cs, ¬x = ',' ∧ ¬x = '"' ∧ ¬x = '\n' :=
      fun x hx => h x (List.mem_cons_of_mem _ hx)
    rw [List.cons_append, parseAux_norm_char h1 h2 h3,
      ih hcs rest (c :: curF) curR acc]
    simp [List.reverse_cons, List.append_assoc]

lemma parseQuotedRun : ∀ (l rest curF : List Char) (curR : List String)
    (acc : List (List String)),
    parseAux (escapeChars l ++ rest) CsvSt.quot curF curR acc
      = parseAux rest CsvSt.quot (l.reverse ++ curF) curR acc := by
  intro l
  induction l with
  | nil => intro rest curF curR acc; simp [escapeChars]
  | cons c cs ih =>
    intro rest curF curR acc
    by_cases hc : c = '"'
    · subst hc
      have hesc : escapeChars ('"' :: cs) = '"' :: '"' :: escapeChars cs := rfl
      have hstep : parseAux ('"' :: '"' :: (escapeChars cs ++ rest)) CsvSt.quot
            curF curR acc
          = parseAux (escapeChars cs ++ rest) CsvSt.quot ('"' :: curF) curR acc := rfl
      rw [hesc, List.cons_append, List.cons_append, hstep,
        ih rest ('"' :: curF) curR acc]
      simp [List.reverse_cons, List.append_assoc]
    · have hesc : escapeChars (c :: cs) = c :: escapeChars cs := by
        simp [escapeChars, hc]
      rw [hesc, List.cons_append, parseAux_quot_char hc,
        ih rest (c :: curF) curR acc]
      simp [List.reverse_cons, List.append_assoc]

lemma parseFieldComma (f : String) (rest : List Char) (curR : List String)
    (acc : List (List String)) :
    parseAux (writeField f ++ ',' :: rest) CsvSt.norm [] curR acc
      = parseAux rest CsvSt.norm [] (f :: curR) acc := by
  by_cases hq : needsQuoting f
  · have hw : writeField f = '"' :: (escapeChars f.data ++ ['"']) := by
      simp [writeField, hq]
    have hstart : parseAux ('"' :: (escapeChars f.data ++ ('"' :: ',' :: rest)))
          CsvSt.norm [] curR acc
        = parseAux (escapeChars f.data ++ ('"' :: ',' :: rest)) CsvSt.quot [] curR acc :=
      rfl
    have hclose : parseAux ('"' :: ',' :: rest) CsvSt.quot (f.data.reverse ++ []) curR acc
        = parseAux (',' :: rest) CsvSt.post (f.data.reverse ++ []) curR acc := rfl
    have hcomma : parseAux (',' :: rest) CsvSt.post (f.data.reverse ++ []) curR acc
        = parseAux rest CsvSt.norm []
            (String.mk (f.data.reverse ++ []).reverse :: curR) acc := rfl
    rw [hw, List.cons_append, List.append_assoc]
    have : ('"' : Char) :: ',' :: rest = ['"'] ++ (',' :: rest) := rfl
    rw [show ['"'] ++ ',' :: rest = '"' :: ',' :: rest from rfl]
    rw [hstart, parseQuotedRun f.data ('"' :: ',' :: rest) [] curR acc, hclose, hcomma]
    simp [mkData]
  · have hf : needsQuoting f = false := by
      revert hq
      cases needsQuoting f <;> simp
    have hw : writeField f = f.data := by simp [writeField, hf]
    rw [hw, parseRun f.data (noSpecial hf) (',' :: rest) [] curR acc]
    have hcomma : parseAux (',' :: rest) CsvSt.norm (f.data.reverse ++ []) curR acc
        = parseAux rest CsvSt.norm []
            (String.mk (f.data.reverse ++ []).reverse :: curR) acc := rfl
    rw [hcomma]
    simp [mkData]

lemma parseFieldNl (f : String) (rest : List Char) (curR : List String)
    (acc : List (List String)) :
    parseAux (writeField f ++ '\n' :: rest) CsvSt.norm [] curR acc
      = parseAux rest CsvSt.norm [] [] ((f :: curR).reverse :: acc) := by
  by_cases hq : needsQuoting f
  · have hw : writeField f = '"' :: (escapeChars f.data ++ ['"']) := by
      simp [writeField, hq]
    have hstart : parseAux ('"' :: (escapeChars f.data ++ ('"' :: '\n' :: rest)))
          CsvSt.norm [] curR acc
        = parseAux (escapeChars f.data ++ ('"' :: '\n' :: rest)) CsvSt.quot [] curR acc :=
      rfl
    have hclose : parseAux ('"' :: '\n' :: rest) CsvSt.quot (f.data.reverse ++ []) curR acc
        = parseAux ('\n' :: rest) CsvSt.post (f.data.reverse ++ []) curR acc := rfl
    have hnl : parseAux ('\n' :: rest) CsvSt.post (f.data.reverse ++ []) curR acc
        = parseAux rest CsvSt.norm [] []
            ((String.mk (f.data.reverse ++ []).reverse :: curR).reverse :: acc) := rfl
    rw [hw, List.cons_append, List.append_assoc]
    rw [show ['"'] ++ '\n' :: rest = '"' :: '\n' :: rest from rfl]
    rw [hstart, parseQuotedRun f.data ('"' :: '\n' :: rest) [] curR acc, hclose, hnl]
    simp [mkData]
  · have hf : needsQuoting f = false := by
      revert hq
      cases needsQuoting f <;> simp
    have hw : writeField f = f.data := by simp [writeField, hf]
    rw [hw, parseRun f.data (noSpecial hf) ('\n' :: rest) [] curR acc]
    have hnl : parseAux ('\n' :: rest) CsvSt.norm (f.data.reverse ++ []) curR acc
        = parseAux rest CsvSt.norm [] []
            ((String.mk (f.data.reverse ++ []).reverse :: curR).reverse :: acc) := rfl
    rw [hnl]
    simp [mkData]

lemma parseRowNl : ∀ (row : List String), row ≠ [] →
    ∀ (rest : List Char) (curR : List String) (acc : List (List String)),
      parseAux (writeRow row ++ '\n' :: rest) CsvSt.norm [] curR acc
        = parseAux rest CsvSt.norm [] [] ((curR.reverse ++ row) :: acc) := by
  intro row
  induction row with
  | nil => intro h; exact absurd rfl h
  | cons f t ih =>
    intro _ rest curR acc
    cases t with
    | nil =>
      rw [show writeRow [f] = writeField f from rfl, parseFieldNl]
      simp [List.reverse_cons]
    | cons g t2 =>
      rw [show writeRow (f :: g :: t2) = writeField f ++ ',' :: writeRow (g :: t2)
          from rfl]
      rw [List.append_assoc, show (',' :: writeRow (g :: t2)) ++ '\n' :: rest
          = ',' :: (writeRow (g :: t2) ++ '\n' :: rest) from rfl]
      rw [parseFieldComma, ih (by simp) rest (f :: curR) acc]
      simp [List.reverse_cons, List.append_assoc]

lemma parseRows : ∀ (rows : List (List String)), (∀ r ∈ rows, r ≠ []) →
    ∀ acc, parseAux (writeRowsAux rows) CsvSt.norm [] [] acc = acc.reverse ++ rows := by
  intro rows
  induction rows with
  | nil =>
    intro _ acc
    have : parseAux [] CsvSt.norm [] [] acc = acc.reverse := rfl
    rw [show writeRowsAux [] = [] from rfl, this]
    simp
  | cons r rs ih =>
    intro h acc
    rw [show writeRowsAux (r :: rs) = writeRow r ++ '\n' :: writeRowsAux rs from rfl]
    rw [parseRowNl r (h r (by simp)) (writeRowsAux rs) [] acc]
    rw [ih (fun x hx => h x (List.mem_cons_of_mem _ hx)) _]
    simp

/-- Writing records to CSV and reading the text back restores the records,
whenever every record has at least one field. -/
lemma csvRoundtrip (rows : List (List String)) (h : ∀ r ∈ rows, r ≠ []) :
    parseCsv (String.mk (writeRowsAux rows)) = rows := by
  have := parseRows rows h []
  simpa [parseCsv] using this

set_option maxRecDepth 8000 in
/-- C5 counterexample: the export serializes `df` itself, so the exported
header row is the frame's own column list (the order the store returned),
not the display table's column list — on a snapshot whose store column order
is `id` first with answers grouped, parsing the export yields a first row
different from `display_cols`. -/
theorem claim_C5_counterexample :
    (parseCsv (stripBom (((renderPage storeOrderFrame "").exportData).getD ""))).headD []
        = storeOrderFrame.cols
    ∧ storeOrderFrame.cols ≠ displayCols := by
  constructor <;> decide

/-- C5 amended: parsing the exported CSV (UTF-8 with BOM, comma-delimited,
header row first) reconstructs exactly the full preprocessed dataset — every
record, with `created_at` in display format, in the dataframe's own column
order (the order the store returned), which need not equal the display
table's column list. -/
theorem claim_C5_export_roundtrip_amended (raw : Frame) (h1 : raw.cols ≠ [])
    (h2 : ∀ r ∈ raw.rows, r.length = raw.cols.length) :
    parseCsv (stripBom (exportCsv raw.preprocess))
      = raw.preprocess.cols :: raw.preprocess.rows := by
  have hstrip : stripBom (exportCsv raw.preprocess)
      = String.mk (writeRowsAux (raw.preprocess.cols :: raw.preprocess.rows)) := by
    simp [exportCsv, stripBom]
  rw [hstrip]
  apply csvRoundtrip
  intro r hr
  have hposc : 0 < raw.cols.length := List.length_pos.mpr h1
  rcases List.mem_cons.mp hr with h | h
  · subst h
    rw [preprocess_cols]
    exact h1
  · simp only [Frame.preprocess, List.mem_map] at h
    obtain ⟨r0, hr0, rfl⟩ := h
    apply List.length_pos.mp
    rw [List.length_set, h2 r0 hr0]
    exact hposc

theorem claim_C5_export_roundtrip_amended_witness :
    scenarioFrame.cols ≠ []
    ∧ (∀ r ∈ scenarioFrame.rows, r.length = scenarioFrame.cols.length)
    ∧ parseCsv (stripBom (exportCsv scenarioFrame.preprocess))
        = scenarioFrame.preprocess.cols :: scenarioFrame.preprocess.rows :=
  ⟨by decide, by decide,
    claim_C5_export_roundtrip_amended scenarioFrame (by decide) (by decide)⟩
